import Mathlib

/-!
Shallow embedding of the ralph-tui permission-denial detector
(src/engine/permission-denial-detector.ts) and of the Droid agent plugin
(src/plugins/agents/droid/index.ts), together with verified properties of
the embedded code.

Strings are modelled as lists of characters.  Each regular expression of
the detector is translated into an explicit matching function over a
position in the text: the function receives the reversed text before the
position (used by lookbehinds, anchors and word boundaries) and the text
from the position on, and returns the remaining text after the match
together with the first capture group, when the pattern matches exactly at
that position.  Scanning positions from the left reproduces the leftmost
match returned by RegExp.prototype.test and String.prototype.match.
-/

/-- The JavaScript whitespace class backslash-s (also the character set
trimmed by String.prototype.trim), by code point. -/
def isWS (c : Char) : Bool :=
  c.toNat = 32 || c.toNat = 9 || c.toNat = 10 || c.toNat = 11 || c.toNat = 12 ||
  c.toNat = 13 || c.toNat = 160 || c.toNat = 5760 ||
  (8192 ≤ c.toNat && c.toNat ≤ 8202) ||
  c.toNat = 8232 || c.toNat = 8233 || c.toNat = 8239 || c.toNat = 8287 ||
  c.toNat = 12288 || c.toNat = 65279

/-- JavaScript line terminators: the dot of a regular expression matches any
character that is not one of these. -/
def isLineTerm (c : Char) : Bool :=
  c.toNat = 10 || c.toNat = 13 || c.toNat = 8232 || c.toNat = 8233

/-- The JavaScript word class backslash-w, used by word boundaries. -/
def isWordChar (c : Char) : Bool :=
  (48 ≤ c.toNat && c.toNat ≤ 57) || (65 ≤ c.toNat && c.toNat ≤ 90) ||
  (97 ≤ c.toNat && c.toNat ≤ 122) || c.toNat = 95

/-- ASCII lower-casing: the canonicalization performed by a case-insensitive
JavaScript regular expression without the unicode flag coincides with ASCII
case folding on the ASCII pattern characters used by the detector. -/
def lowerC (c : Char) : Char :=
  if 65 ≤ c.toNat ∧ c.toNat ≤ 90 then Char.ofNat (c.toNat + 32) else c

/-- Consume a literal case-insensitively; returns the remaining text. -/
def stripCI : List Char → List Char → Option (List Char)
  | [], s => some s
  | _ :: _, [] => none
  | c :: cs, d :: ds => if lowerC d = lowerC c then stripCI cs ds else none

/-- Whether the text starts with the given literal, case-insensitively. -/
def startsWithCI (lit s : List Char) : Bool := (stripCI lit s).isSome

/-- Caret anchor with the multiline flag: start of string or right after a
line terminator.  The argument is the reversed text before the position. -/
def atLineStart (revPrev : List Char) : Bool :=
  match revPrev with
  | [] => true
  | c :: _ => isLineTerm c

/-- Word boundary before a word character: the previous character, if any,
is not a word character. -/
def noWordBefore (revPrev : List Char) : Bool :=
  match revPrev with
  | [] => true
  | c :: _ => !isWordChar c

/-- Word boundary after a word character: the next character, if any, is
not a word character. -/
def noWordAfter (rest : List Char) : Bool :=
  match rest with
  | [] => true
  | c :: _ => !isWordChar c

/-- Lookbehind test for a word followed by one whitespace character ending
right before the current position (case-insensitive). -/
def precededByCI (word : List Char) (revPrev : List Char) : Bool :=
  match revPrev with
  | c :: r => isWS c && startsWithCI word.reverse r
  | [] => false

/-- The negative lookbehind shared by the waiting patterns: the position is
right after "was ", "were " or "been " (case-insensitive). -/
def pastBlocked (revPrev : List Char) : Bool :=
  precededByCI "was".data revPrev || precededByCI "were".data revPrev ||
  precededByCI "been".data revPrev

/-- A character matched by the class [:\s]. -/
def isSep (c : Char) : Bool := c.toNat = 58 || isWS c

/-- The greedy group (.+): at least one character, extending to the end of
the line; returns (remaining text, capture). -/
def dotPlus (s : List Char) : Option (List Char × List Char) :=
  match s with
  | [] => none
  | c :: _ =>
    if isLineTerm c then none
    else some (s.dropWhile (fun d => !isLineTerm d), s.takeWhile (fun d => !isLineTerm d))

/-- Backtracking for the greedy [:\s]+ before (.+): the first argument is
the reversed run of separator characters consumed so far; give characters
back one at a time until (.+) can match; at least one separator must remain
consumed. -/
def sepBacktrack : List Char → List Char → Option (List Char × List Char)
  | [], _ => none
  | s :: sr, rest =>
    match dotPlus rest with
    | some pc => some pc
    | none => sepBacktrack sr (s :: rest)

/-- The regex tail [:\s]+(.+) with JavaScript greedy semantics. -/
def sepsThenCap (s : List Char) : Option (List Char × List Char) :=
  sepBacktrack (s.takeWhile isSep).reverse (s.dropWhile isSep)

/-- The group backslash-s-plus: at least one whitespace character, greedy. -/
def wsPlus (r : List Char) : Option (List Char) :=
  match r with
  | [] => none
  | c :: cs => if isWS c then some (cs.dropWhile isWS) else none

/-- A matcher at a fixed position: reversed previous text and remaining
text in, remaining text after the match and optional capture out. -/
abbrev JsRegex := List Char → List Char → Option (List Char × Option (List Char))

/-- Embeds /^Claude wants to (?:run|execute)[:\s]+(.+)/im. -/
def wantsRunAt : JsRegex := fun revPrev rest =>
  if atLineStart revPrev then
    (stripCI "claude wants to ".data rest).bind fun r1 =>
      (stripCI "run".data r1 <|> stripCI "execute".data r1).bind fun r2 =>
        (sepsThenCap r2).map fun pc => (pc.1, some pc.2)
  else none

/-- Embeds /^Claude wants to (?:write|create|modify)(?: to)?[:\s]+(.+)/im;
the optional " to" is tried greedily and given back when the rest of the
pattern cannot match. -/
def wantsWriteAt : JsRegex := fun revPrev rest =>
  if atLineStart revPrev then
    (stripCI "claude wants to ".data rest).bind fun r1 =>
      (stripCI "write".data r1 <|> stripCI "create".data r1 <|> stripCI "modify".data r1).bind fun r2 =>
        (((stripCI " to".data r2).bind sepsThenCap) <|> sepsThenCap r2).map fun pc =>
          (pc.1, some pc.2)
  else none

/-- Embeds /^Claude wants to edit[:\s]+(.+)/im. -/
def wantsEditAt : JsRegex := fun revPrev rest =>
  if atLineStart revPrev then
    (stripCI "claude wants to edit".data rest).bind fun r1 =>
      (sepsThenCap r1).map fun pc => (pc.1, some pc.2)
  else none

/-- Embeds /(?<!was\s)(?<!were\s)(?<!been\s)\bwaiting for (?:user )?(?:permission|approval)\b/i. -/
def waitingPermAt : JsRegex := fun revPrev rest =>
  if pastBlocked revPrev then none
  else if noWordBefore revPrev then
    (stripCI "waiting for ".data rest).bind fun r1 =>
      (((stripCI "user ".data r1).bind fun ru =>
          (stripCI "permission".data ru <|> stripCI "approval".data ru).bind fun r2 =>
            if noWordAfter r2 then some r2 else none) <|>
        ((stripCI "permission".data r1 <|> stripCI "approval".data r1).bind fun r2 =>
          if noWordAfter r2 then some r2 else none)).map fun rem => (rem, none)
  else none

/-- Embeds /"type"\s*:\s*"permission"/i. -/
def jsonTypePermAt : JsRegex := fun _ rest =>
  (stripCI "\"type\"".data rest).bind fun r1 =>
    (stripCI ":".data (r1.dropWhile isWS)).bind fun r2 =>
      (stripCI "\"permission\"".data (r2.dropWhile isWS)).map fun rem => (rem, none)

/-- Embeds /(?<!previously\s)(?<!already\s)\brequires? (?:user )?(?:input|confirmation|approval)\b/i. -/
def requiresAt : JsRegex := fun revPrev rest =>
  if precededByCI "previously".data revPrev || precededByCI "already".data revPrev then none
  else if noWordBefore revPrev then
    (stripCI "require".data rest).bind fun r1 =>
      (((stripCI "s".data r1).bind fun rs => requiresTail rs) <|> requiresTail r1).map fun rem =>
        (rem, none)
  else none
where
  requiresTail (r : List Char) : Option (List Char) :=
    (stripCI " ".data r).bind fun r2 =>
      (((stripCI "user ".data r2).bind fun ru => requiresAlts ru) <|> requiresAlts r2)
  requiresAlts (r3 : List Char) : Option (List Char) :=
    (stripCI "input".data r3 <|> stripCI "confirmation".data r3 <|> stripCI "approval".data r3).bind
      fun r4 => if noWordAfter r4 then some r4 else none

/-- The bounded word \brequires?\b, given whether the previous character is
a word character; the optional s is greedy and given back against the
trailing boundary. -/
def reqBoundedAt (prevWord : Bool) (r : List Char) : Option (List Char) :=
  if prevWord then none
  else
    (stripCI "require".data r).bind fun r1 =>
      ((stripCI "s".data r1).bind fun r2 => if noWordAfter r2 then some r2 else none) <|>
        (if noWordAfter r1 then some r1 else none)

/-- The lazy tail .*?\brequires?\b: skip the fewest same-line characters to
a bounded require/requires. -/
def lazyToRequires : Bool → List Char → Option (List Char)
  | pw, [] => reqBoundedAt pw []
  | pw, c :: cs =>
    match reqBoundedAt pw (c :: cs) with
    | some rem => some rem
    | none => if isLineTerm c then none else lazyToRequires (isWordChar c) cs

/-- The lazy tail .*?git: skip the fewest same-line characters to a literal
git (case-insensitive). -/
def lazyToGit : List Char → Option (List Char)
  | [] => stripCI "git".data []
  | c :: cs =>
    match stripCI "git".data (c :: cs) with
    | some rem => some rem
    | none => if isLineTerm c then none else lazyToGit cs

/-- Embeds /(?:git (?:commit|push|pull|merge|rebase).*?\brequires?\b|permission.*?git)/i.
The first branch starts the lazy skip right after the operation word, whose
last character is always a word character. -/
def gitPermAt : JsRegex := fun _ rest =>
  ((stripCI "git ".data rest).bind fun r1 =>
    (stripCI "commit".data r1 <|> stripCI "push".data r1 <|> stripCI "pull".data r1 <|>
      stripCI "merge".data r1 <|> stripCI "rebase".data r1).bind fun r2 =>
      (lazyToRequires true r2).map fun rem => (rem, none)) <|>
  ((stripCI "permission".data rest).bind fun r1 =>
    (lazyToGit r1).map fun rem => (rem, none))

/-- The key token (?:\[?[yYnN]\]?|enter|return); the optional brackets never
interact with the following whitespace, so they are consumed when present. -/
def keyTok (r : List Char) : Option (List Char) :=
  (match (match r with | '[' :: cs => cs | _ => r) with
   | c :: cs =>
     if lowerC c = 'y' || lowerC c = 'n' then
       some (match cs with | ']' :: cs2 => cs2 | _ => cs)
     else none
   | [] => none) <|>
  stripCI "enter".data r <|> stripCI "return".data r

/-- Embeds /(?:press|hit|type)\s+(?:\[?[yYnN]\]?|enter|return)\s+to\s+(?:continue|confirm|proceed)/i. -/
def pressAt : JsRegex := fun _ rest =>
  (stripCI "press".data rest <|> stripCI "hit".data rest <|> stripCI "type".data rest).bind fun r1 =>
    (wsPlus r1).bind fun r2 =>
      (keyTok r2).bind fun r3 =>
        (wsPlus r3).bind fun r4 =>
          (stripCI "to".data r4).bind fun r5 =>
            (wsPlus r5).bind fun r6 =>
              (stripCI "continue".data r6 <|> stripCI "confirm".data r6 <|>
                stripCI "proceed".data r6).map fun rem => (rem, none)

/-- Embeds /(?<!was\s)(?<!were\s)(?<!been\s)\bwaiting for input\b/i. -/
def waitingInputAt : JsRegex := fun revPrev rest =>
  if pastBlocked revPrev then none
  else if noWordBefore revPrev then
    (stripCI "waiting for input".data rest).bind fun r1 =>
      if noWordAfter r1 then some (r1, none) else none
  else none

/-- Embeds /(?<!was\s)(?<!were\s)(?<!been\s)\bawaiting response\b/i. -/
def awaitingRespAt : JsRegex := fun revPrev rest =>
  if pastBlocked revPrev then none
  else if noWordBefore revPrev then
    (stripCI "awaiting response".data rest).bind fun r1 =>
      if noWordAfter r1 then some (r1, none) else none
  else none

/-- Embeds /(?<!was\s)(?<!were\s)(?<!been\s)\bpaused for confirmation\b/i. -/
def pausedConfAt : JsRegex := fun revPrev rest =>
  if pastBlocked revPrev then none
  else if noWordBefore revPrev then
    (stripCI "paused for confirmation".data rest).bind fun r1 =>
      if noWordAfter r1 then some (r1, none) else none
  else none

/-- The literal "blocked"\s*:\s*true at a fixed position. -/
def blockedTrueAt (r : List Char) : Option (List Char) :=
  (stripCI "\"blocked\"".data r).bind fun r1 =>
    (stripCI ":".data (r1.dropWhile isWS)).bind fun r2 =>
      stripCI "true".data (r2.dropWhile isWS)

/-- The lazy tail [\s\S]*?"blocked"\s*:\s*true: skip the fewest characters
of any kind. -/
def lazyToBlockedTrue : List Char → Option (List Char)
  | [] => blockedTrueAt []
  | c :: cs =>
    match blockedTrueAt (c :: cs) with
    | some rem => some rem
    | none => lazyToBlockedTrue cs

/-- Embeds /"tool"\s*:\s*"(?:Bash|Write|Edit)"[\s\S]*?"blocked"\s*:\s*true/i. -/
def toolBlockedAt : JsRegex := fun _ rest =>
  (stripCI "\"tool\"".data rest).bind fun r1 =>
    (stripCI ":".data (r1.dropWhile isWS)).bind fun r2 =>
      (stripCI "\"".data (r2.dropWhile isWS)).bind fun r3 =>
        (stripCI "bash".data r3 <|> stripCI "write".data r3 <|> stripCI "edit".data r3).bind fun r4 =>
          (stripCI "\"".data r4).bind fun r5 =>
            (lazyToBlockedTrue r5).map fun rem => (rem, none)

/-- Scan positions from the left for the first (leftmost) match; returns the
match index, the matched text and the capture group. -/
def firstMatchAux (re : JsRegex) : List Char → List Char → Nat → Option (Nat × List Char × Option (List Char))
  | revPrev, [], i => (re revPrev []).map fun pc => (i, [], pc.2)
  | revPrev, c :: cs, i =>
    match re revPrev (c :: cs) with
    | some (rem, cap) =>
      some (i, (c :: cs).take ((c :: cs).length - rem.length), cap)
    | none => firstMatchAux re (c :: revPrev) cs (i + 1)

/-- The leftmost match of a pattern in a text, as String.prototype.match
without the global flag. -/
def firstMatch (re : JsRegex) (out : List Char) : Option (Nat × List Char × Option (List Char)) :=
  firstMatchAux re [] out 0

/-- RegExp.prototype.test: whether the pattern matches somewhere. -/
def reTest (re : JsRegex) (out : List Char) : Bool := (firstMatch re out).isSome

/-- String.prototype.trim. -/
def trimWS (l : List Char) : List Char :=
  ((l.dropWhile isWS).reverse.dropWhile isWS).reverse

/-- replace(/\s+/g, " "): collapse every whitespace run to a single space;
the flag records whether the previous character was whitespace. -/
def collapseWSAux : Bool → List Char → List Char
  | _, [] => []
  | prevWS, c :: cs =>
    if isWS c then
      if prevWS then collapseWSAux true cs else ' ' :: collapseWSAux true cs
    else c :: collapseWSAux false cs

/-- Collapse internal whitespace runs to single spaces. -/
def collapseWS (l : List Char) : List Char := collapseWSAux false l

/-- Embeds PermissionDenialDetector.extractMessage: a window of 20
characters before the match and 80 after it, trimmed, whitespace-collapsed
and truncated at 150 characters with an appended ellipsis. -/
def extractMessage (output : List Char) (re : JsRegex) : List Char :=
  match firstMatch re output with
  | none => "Permission required".data
  | some (i, m, _) =>
    let s := i - 20
    let e := min output.length (i + m.length + 80)
    let msg := collapseWS (trimWS ((output.take e).drop s))
    if 150 < msg.length then msg.take 150 ++ "...".data else msg

/-- Embeds PermissionDenialDetector.extractCommand: the first capture group
of the leftmost match, trimmed, truncated after 100 characters with an
appended ellipsis; undefined when there is no match or the group is empty. -/
def extractCommand (output : List Char) (re : JsRegex) : Option (List Char) :=
  match firstMatch re output with
  | some (_, _, some g) =>
    if g.isEmpty then none
    else
      let cmd := trimWS g
      some (if 100 < cmd.length then cmd.take 100 ++ "...".data else cmd)
  | _ => none

/-- Result of permission denial detection (interface PermissionDenialResult). -/
structure PermissionDenialResult where
  isBlocked : Bool
  operation : Option String := none
  message : Option String := none
  blockedCommand : Option String := none
deriving DecidableEq, Repr

/-- Input for permission denial detection (interface PermissionDenialInput). -/
structure PermissionDenialInput where
  stdout : String
  stderr : Option String := none
  exitCode : Option Int := none
  agentId : Option String := none
deriving DecidableEq, Repr

/-- Pattern rule: the regular expression, the operation name, and the
optional command-extraction expression (interface PermissionPattern). -/
structure PermissionPattern where
  pattern : JsRegex
  operationName : String
  commandPattern : Option JsRegex := none

/-- The ordered primary rule list PERMISSION_PATTERNS. -/
def PERMISSION_PATTERNS : List PermissionPattern :=
  [ { pattern := wantsRunAt, operationName := "bash command", commandPattern := some wantsRunAt },
    { pattern := wantsWriteAt, operationName := "file modification", commandPattern := some wantsWriteAt },
    { pattern := wantsEditAt, operationName := "file edit", commandPattern := some wantsEditAt },
    { pattern := waitingPermAt, operationName := "operation" },
    { pattern := jsonTypePermAt, operationName := "permission request" },
    { pattern := requiresAt, operationName := "user confirmation" },
    { pattern := gitPermAt, operationName := "git operation" },
    { pattern := pressAt, operationName := "interactive prompt" } ]

/-- The secondary indicator list BLOCKED_INDICATORS. -/
def BLOCKED_INDICATORS : List JsRegex :=
  [ waitingInputAt, awaitingRespAt, pausedConfAt, toolBlockedAt ]

/-- The result built for a matching primary rule. -/
def mkRuleResult (out : List Char) (p : PermissionPattern) : PermissionDenialResult :=
  { isBlocked := true,
    operation := some p.operationName,
    message := some (String.mk (extractMessage out p.pattern)),
    blockedCommand := (p.commandPattern.bind fun cp => extractCommand out cp).map String.mk }

/-- The two rule loops of PermissionDenialDetector.detect: the first
matching primary rule wins; the indicators are consulted only afterwards. -/
def patternDetect (out : List Char) : PermissionDenialResult :=
  match PERMISSION_PATTERNS.find? (fun p => reTest p.pattern out) with
  | some p => mkRuleResult out p
  | none =>
    match BLOCKED_INDICATORS.find? (fun re => reTest re out) with
    | some re =>
      { isBlocked := true,
        operation := some "blocked operation",
        message := some (String.mk (extractMessage out re)) }
    | none => { isBlocked := false }

/-- Whether the first list is a prefix of the second, by character equality. -/
def litPrefixOf : List Char → List Char → Bool
  | [], _ => true
  | _ :: _, [] => false
  | c :: cs, d :: ds => c = d && litPrefixOf cs ds

/-- String.prototype.includes: the needle occurs somewhere in the text. -/
def hasSubstring (needle : List Char) : List Char → Bool
  | [] => litPrefixOf needle []
  | d :: ds => litPrefixOf needle (d :: ds) || hasSubstring needle ds

/-- Embeds PermissionDenialDetector.isClaudeAgent:
agentId.toLowerCase().includes("claude"). -/
def isClaudeAgent (agentId : String) : Bool :=
  hasSubstring "claude".data (agentId.data.map lowerC)

/-- The combined output checked by the rules: stdout, a newline, and stderr
with the empty string for a missing (or empty, by JavaScript truthiness)
stderr. -/
def combinedOutput (input : PermissionDenialInput) : List Char :=
  input.stdout.data ++ '\n' :: (input.stderr.getD "").data

/-- Embeds PermissionDenialDetector.detect.  The agent guard mirrors
JavaScript truthiness: an empty agentId string is falsy, so the rules are
evaluated for it just as for a missing agentId. -/
def detect (input : PermissionDenialInput) : PermissionDenialResult :=
  match input.agentId with
  | some a =>
    if !a.isEmpty && !isClaudeAgent a then { isBlocked := false }
    else patternDetect (combinedOutput input)
  | none => patternDetect (combinedOutput input)

/-- The detector class state: the class declares no instance fields. -/
structure PermissionDenialDetector where
deriving DecidableEq, Repr

/-- The detect method as a state-passing function: no field is assigned by
any method, so the state passes through unchanged. -/
def detectM (d : PermissionDenialDetector) (input : PermissionDenialInput) :
    PermissionDenialResult × PermissionDenialDetector :=
  (detect input, d)

/-- A sequence of detect calls against one detector instance. -/
def runCalls (d : PermissionDenialDetector) : List PermissionDenialInput → List PermissionDenialResult
  | [] => []
  | i :: is =>
    let r := detectM d i
    r.1 :: runCalls r.2 is

/-- Reasoning effort levels accepted by the Droid configuration schema.
Modelled from the spec: the schema module itself is not among the sources;
the spec only states that adapters consume already-validated option values,
so the enum is reconstructed from its use as an optional enumerated field. -/
inductive DroidReasoningEffort where
  | low
  | medium
  | high
deriving DecidableEq, Repr

/-- The static capability descriptor type of an agent plugin
(AgentPluginMeta), with the fields declared by the Droid plugin. -/
structure AgentPluginMeta where
  id : String
  name : String
  description : String
  version : String
  author : String
  defaultCommand : String
  supportsStreaming : Bool
  supportsInterrupt : Bool
  supportsFileContext : Bool
  supportsSubagentTracing : Bool
  structuredOutputFormat : String
deriving DecidableEq, Repr

/-- Modelled from the spec: the droid configuration module is not among the
sources; the concrete command string is immaterial to the claims. -/
def DROID_DEFAULT_COMMAND : String := "droid"

/-- The meta field built by the DroidAgentPlugin class declaration. -/
def droidMeta : AgentPluginMeta :=
  { id := "droid",
    name := "Factory Droid",
    description := "Factory Droid AI coding assistant CLI",
    version := "1.0.0",
    author := "Factory",
    defaultCommand := DROID_DEFAULT_COMMAND,
    supportsStreaming := true,
    supportsInterrupt := true,
    supportsFileContext := false,
    supportsSubagentTracing := true,
    structuredOutputFormat := "jsonl" }

/-- The mutable instance state of a DroidAgentPlugin object: the meta
record (mutated through this.meta) and the four option fields. -/
structure DroidState where
  meta : AgentPluginMeta
  model : Option String
  reasoningEffort : Option DroidReasoningEffort
  skipPermissions : Bool
  enableTracing : Bool
deriving DecidableEq, Repr

/-- A freshly constructed DroidAgentPlugin: field initializers of the class. -/
def droidInitialState : DroidState :=
  { meta := droidMeta,
    model := none,
    reasoningEffort := none,
    skipPermissions := false,
    enableTracing := true }

/-- The data produced by a successful DroidAgentConfigSchema.safeParse. -/
structure DroidParsedConfig where
  model : Option String
  reasoningEffort : Option DroidReasoningEffort
  skipPermissions : Bool
  enableTracing : Bool
deriving DecidableEq, Repr

/-- A dynamically typed configuration value, as read from a
Record of string to unknown. -/
inductive ConfigValue where
  | absent
  | sval (s : String)
  | bval (b : Bool)
  | nval (n : Int)
deriving DecidableEq, Repr

/-- The four configuration fields the Droid plugin picks out of its
configuration record. -/
structure DroidAgentConfig where
  model : ConfigValue := ConfigValue.absent
  reasoningEffort : ConfigValue := ConfigValue.absent
  skipPermissions : ConfigValue := ConfigValue.absent
  enableTracing : ConfigValue := ConfigValue.absent
deriving DecidableEq, Repr

/-- Modelled from the spec: the schema module (DroidAgentConfigSchema) is
not among the sources.  Reconstructed from its use: model is an optional
string, reasoningEffort an optional enumerated string, skipPermissions a
boolean defaulting to false, enableTracing a boolean defaulting to true;
any other shape fails validation.  safeParse never throws: failure is the
none result. -/
def DroidAgentConfigSchema.safeParse (c : DroidAgentConfig) : Option DroidParsedConfig :=
  let pm : Option (Option String) :=
    match c.model with
    | ConfigValue.absent => some none
    | ConfigValue.sval s => some (some s)
    | _ => none
  let pr : Option (Option DroidReasoningEffort) :=
    match c.reasoningEffort with
    | ConfigValue.absent => some none
    | ConfigValue.sval "low" => some (some DroidReasoningEffort.low)
    | ConfigValue.sval "medium" => some (some DroidReasoningEffort.medium)
    | ConfigValue.sval "high" => some (some DroidReasoningEffort.high)
    | _ => none
  let ps : Option Bool :=
    match c.skipPermissions with
    | ConfigValue.absent => some false
    | ConfigValue.bval b => some b
    | _ => none
  let pe : Option Bool :=
    match c.enableTracing with
    | ConfigValue.absent => some true
    | ConfigValue.bval b => some b
    | _ => none
  match pm, pr, ps, pe with
  | some m, some r, some s, some e =>
    some { model := m, reasoningEffort := r, skipPermissions := s, enableTracing := e }
  | _, _, _, _ => none

/-- Embeds DroidAgentPlugin.initialize, taking the safeParse outcome as
input.  On failure the method returns early and the state is untouched; on
success the option fields are assigned and, when tracing is disabled,
this.meta.supportsSubagentTracing is set to false.  The base-class call is
modelled as preserving this state: per the spec the base adapter holds no
droid option state and the capability descriptor is the plugin's own.  The
console warning on skipPermissions is a side effect outside the state. -/
def droidInit (parsed : Option DroidParsedConfig) (s : DroidState) : DroidState :=
  match parsed with
  | none => s
  | some d =>
    let s1 :=
      match d.model with
      | some m => if 0 < m.length then { s with model := some m } else s
      | none => s
    let s2 :=
      match d.reasoningEffort with
      | some r => { s1 with reasoningEffort := some r }
      | none => s1
    let s3 := { s2 with skipPermissions := d.skipPermissions }
    let s4 := { s3 with enableTracing := d.enableTracing }
    if d.enableTracing then s4
    else { s4 with meta := { s4.meta with supportsSubagentTracing := false } }

/-- Formalization of the precondition of the past-tense claim: somewhere in
the text a past-tense auxiliary (was, were, been) immediately precedes a
permission or waiting phrase. -/
def pastPhraseHere (revPrev rest : List Char) : Bool :=
  pastBlocked revPrev &&
    (startsWithCI "waiting for permission".data rest ||
     startsWithCI "waiting for approval".data rest ||
     startsWithCI "waiting for user permission".data rest ||
     startsWithCI "waiting for user approval".data rest ||
     startsWithCI "waiting for input".data rest)

/-- Scan for a past-tense-preceded permission or waiting phrase. -/
def hasPastAux : List Char → List Char → Bool
  | revPrev, [] => pastPhraseHere revPrev []
  | revPrev, c :: cs => pastPhraseHere revPrev (c :: cs) || hasPastAux (c :: revPrev) cs

/-- The text contains a past-tense auxiliary immediately preceding a
permission or waiting phrase. -/
def hasPastPrecededPhrase (s : List Char) : Bool := hasPastAux [] s

/-- String.prototype.slice with clamped bounds. -/
def windowSlice (out : List Char) (s e : Nat) : List Char := (out.take e).drop s

/-- Truncation to 150 characters with an appended ellipsis. -/
def truncate150 (l : List Char) : List Char :=
  if 150 < l.length then l.take 150 ++ "...".data else l

/-- Defined following the spec's words, to be compared with extractMessage:
a bounded window of context around the match location (20 characters
before, the match and 80 characters after), with whitespace collapsed,
truncated to 150 characters with an ellipsis; a generic default when no
match location exists. -/
def messageSpecSide (output : List Char) (mi : Option (Nat × List Char)) : List Char :=
  match mi with
  | none => "Permission required".data
  | some (i, m) =>
    truncate150 (collapseWS (trimWS
      (windowSlice output (i - 20) (min output.length (i + m.length + 80)))))

/-- Scenario A input: the bash-command permission prompt. -/
def c3Input : PermissionDenialInput :=
  { stdout := "Claude wants to run: git commit -m \"test\"" }

/-- A 150-character command behind the command-capturing rule. -/
def c1Input : PermissionDenialInput :=
  { stdout := "Claude wants to run: " ++ String.mk (List.replicate 150 'a') }

/-- Scenario B input: past-tense narration only. -/
def c2Input : PermissionDenialInput :=
  { stdout := "The agent was waiting for permission earlier" }

/-- An input holding both past-tense narration and a live prompt. -/
def c2CexInput : PermissionDenialInput :=
  { stdout := "The agent was waiting for permission earlier\nClaude wants to run: echo hi" }

/-- A live prompt carried under an empty (falsy) agent identifier. -/
def c4CexInput : PermissionDenialInput :=
  { stdout := "Claude wants to run: ls", agentId := some "" }

/-- A live prompt carried under a non-Claude agent identifier. -/
def c4AInput : PermissionDenialInput :=
  { stdout := "Claude wants to run: ls", agentId := some "opencode" }

/-- A live prompt carried under an upper-case Claude agent identifier. -/
def c4BInput : PermissionDenialInput :=
  { stdout := "Claude wants to run: ls", agentId := some "CLAUDE_AGENT" }

/-- A valid Droid configuration that disables tracing. -/
def c6Config : DroidAgentConfig := { enableTracing := ConfigValue.bval false }

/-- A Droid configuration whose skipPermissions field has the wrong type,
failing schema validation. -/
def c10BadConfig : DroidAgentConfig := { skipPermissions := ConfigValue.sval "yes" }
/-- Whitespace characters are outside the ASCII uppercase range, so ASCII
lower-casing fixes them. -/
theorem ws_lower_id (c : Char) (h : isWS c = true) : lowerC c = c := by
  unfold lowerC
  rw [if_neg]
  simp only [isWS, Bool.or_eq_true, decide_eq_true_eq, Bool.and_eq_true] at h
  omega

/-- A literal beginning with a non-whitespace character (after folding)
cannot be consumed from all-whitespace text. -/
theorem ws_strip_none (c0 : Char) (lit rest : List Char) (hhead : lit.head? = some c0)
    (hc0 : isWS (lowerC c0) = false) (h : rest.all isWS = true) :
    stripCI lit rest = none := by
  cases lit with
  | nil => simp at hhead
  | cons a as =>
    simp only [List.head?_cons, Option.some.injEq] at hhead
    subst hhead
    cases rest with
    | nil => rfl
    | cons d ds =>
      simp only [List.all_cons, Bool.and_eq_true] at h
      unfold stripCI
      rw [if_neg]
      intro heq
      rw [ws_lower_id d h.1] at heq
      rw [heq] at h
      rw [hc0] at h
      exact Bool.noConfusion h.1
theorem wantsRunAt_ws (revPrev rest : List Char) (h : rest.all isWS = true) :
    wantsRunAt revPrev rest = none := by
  unfold wantsRunAt
  rw [ws_strip_none 'c' "claude wants to ".data rest rfl (by decide) h]
  simp

theorem wantsWriteAt_ws (revPrev rest : List Char) (h : rest.all isWS = true) :
    wantsWriteAt revPrev rest = none := by
  unfold wantsWriteAt
  rw [ws_strip_none 'c' "claude wants to ".data rest rfl (by decide) h]
  simp

theorem wantsEditAt_ws (revPrev rest : List Char) (h : rest.all isWS = true) :
    wantsEditAt revPrev rest = none := by
  unfold wantsEditAt
  rw [ws_strip_none 'c' "claude wants to edit".data rest rfl (by decide) h]
  simp

theorem waitingPermAt_ws (revPrev rest : List Char) (h : rest.all isWS = true) :
    waitingPermAt revPrev rest = none := by
  unfold waitingPermAt
  rw [ws_strip_none 'w' "waiting for ".data rest rfl (by decide) h]
  simp

theorem jsonTypePermAt_ws (revPrev rest : List Char) (h : rest.all isWS = true) :
    jsonTypePermAt revPrev rest = none := by
  unfold jsonTypePermAt
  rw [ws_strip_none '\"' "\"type\"".data rest rfl (by decide) h]
  simp

theorem requiresAt_ws (revPrev rest : List Char) (h : rest.all isWS = true) :
    requiresAt revPrev rest = none := by
  unfold requiresAt
  rw [ws_strip_none 'r' "require".data rest rfl (by decide) h]
  simp

theorem gitPermAt_ws (revPrev rest : List Char) (h : rest.all isWS = true) :
    gitPermAt revPrev rest = none := by
  unfold gitPermAt
  rw [ws_strip_none 'g' "git ".data rest rfl (by decide) h,
    ws_strip_none 'p' "permission".data rest rfl (by decide) h]
  simp

theorem pressAt_ws (revPrev rest : List Char) (h : rest.all isWS = true) :
    pressAt revPrev rest = none := by
  unfold pressAt
  rw [ws_strip_none 'p' "press".data rest rfl (by decide) h,
    ws_strip_none 'h' "hit".data rest rfl (by decide) h,
    ws_strip_none 't' "type".data rest rfl (by decide) h]
  simp

theorem waitingInputAt_ws (revPrev rest : List Char) (h : rest.all isWS = true) :
    waitingInputAt revPrev rest = none := by
  unfold waitingInputAt
  rw [ws_strip_none 'w' "waiting for input".data rest rfl (by decide) h]
  simp

theorem awaitingRespAt_ws (revPrev rest : List Char) (h : rest.all isWS = true) :
    awaitingRespAt revPrev rest = none := by
  unfold awaitingRespAt
  rw [ws_strip_none 'a' "awaiting response".data rest rfl (by decide) h]
  simp

theorem pausedConfAt_ws (revPrev rest : List Char) (h : rest.all isWS = true) :
    pausedConfAt revPrev rest = none := by
  unfold pausedConfAt
  rw [ws_strip_none 'p' "paused for confirmation".data rest rfl (by decide) h]
  simp

theorem toolBlockedAt_ws (revPrev rest : List Char) (h : rest.all isWS = true) :
    toolBlockedAt revPrev rest = none := by
  unfold toolBlockedAt
  rw [ws_strip_none '\"' "\"tool\"".data rest rfl (by decide) h]
  simp

/-- If a matcher rejects every all-whitespace suffix, the scan over an
all-whitespace text finds nothing. -/
theorem firstMatchAux_ws (re : JsRegex)
    (H : ∀ revPrev rest, rest.all isWS = true → re revPrev rest = none) :
    ∀ rest revPrev i, rest.all isWS = true → firstMatchAux re revPrev rest i = none := by
  intro rest
  induction rest with
  | nil =>
    intro revPrev i h
    unfold firstMatchAux
    rw [H revPrev [] rfl]
    rfl
  | cons c cs ih =>
    intro revPrev i h
    unfold firstMatchAux
    rw [H revPrev (c :: cs) h]
    exact ih (c :: revPrev) (i + 1) (by simp only [List.all_cons, Bool.and_eq_true] at h; exact h.2)

theorem reTest_ws (re : JsRegex)
    (H : ∀ revPrev rest, rest.all isWS = true → re revPrev rest = none)
    (out : List Char) (h : out.all isWS = true) : reTest re out = false := by
  unfold reTest firstMatch
  rw [firstMatchAux_ws re H out [] 0 h]
  rfl

/-- On all-whitespace combined output neither rule list matches. -/
theorem patternDetect_ws (out : List Char) (h : out.all isWS = true) :
    patternDetect out = { isBlocked := false } := by
  unfold patternDetect
  rw [List.find?_eq_none.mpr, List.find?_eq_none.mpr]
  · intro re hre
    simp only [PERMISSION_PATTERNS, BLOCKED_INDICATORS, List.mem_cons, List.not_mem_nil, or_false] at hre
    rcases hre with rfl | rfl | rfl | rfl
    · simp [reTest_ws _ waitingInputAt_ws out h]
    · simp [reTest_ws _ awaitingRespAt_ws out h]
    · simp [reTest_ws _ pausedConfAt_ws out h]
    · simp [reTest_ws _ toolBlockedAt_ws out h]
  · intro p hp
    simp only [PERMISSION_PATTERNS, BLOCKED_INDICATORS, List.mem_cons, List.not_mem_nil, or_false] at hp
    rcases hp with rfl | rfl | rfl | rfl | rfl | rfl | rfl | rfl
    · simp [reTest_ws _ wantsRunAt_ws out h]
    · simp [reTest_ws _ wantsWriteAt_ws out h]
    · simp [reTest_ws _ wantsEditAt_ws out h]
    · simp [reTest_ws _ waitingPermAt_ws out h]
    · simp [reTest_ws _ jsonTypePermAt_ws out h]
    · simp [reTest_ws _ requiresAt_ws out h]
    · simp [reTest_ws _ gitPermAt_ws out h]
    · simp [reTest_ws _ pressAt_ws out h]
/-- A predicate that fails before index k and holds at k is first found at k. -/
theorem find_first {α : Type} (q : α → Bool) :
    ∀ (l : List α) (k : Nat) (hk : k < l.length),
      (∀ (j : Nat) (hj : j < k), q (l.get ⟨j, Nat.lt_trans hj hk⟩) = false) →
      q (l.get ⟨k, hk⟩) = true → l.find? q = some (l.get ⟨k, hk⟩) := by
  intro l
  induction l with
  | nil =>
    intro k hk
    exact absurd hk (by simp)
  | cons a as ih =>
    intro k hk hprev hq
    cases k with
    | zero =>
      exact List.find?_cons_of_pos as hq
    | succ k2 =>
      have ha : q a = false := hprev 0 (Nat.succ_pos k2)
      rw [List.find?_cons_of_neg as (by simp [ha])]
      exact ih k2 (Nat.lt_of_succ_lt_succ hk) (fun j hj => hprev (j + 1) (Nat.succ_lt_succ hj)) hq

/-- The state threads through a call sequence unchanged, so appending one
call appends its pure result. -/
theorem runCalls_concat (d : PermissionDenialDetector) (i : PermissionDenialInput) :
    ∀ hist : List PermissionDenialInput,
      runCalls d (hist ++ [i]) = runCalls d hist ++ [detect i] := by
  intro hist
  induction hist with
  | nil => rfl
  | cons x xs ih => simp [runCalls, detectM, ih]
set_option maxRecDepth 8000

/-- Claim C3: for stdout "Claude wants to run: git commit -m \"test\"" with
no agentId, detect returns isBlocked true, operation "bash command" and
blockedCommand "git commit -m \"test\"". -/
theorem C3_scenarioA :
    (detect c3Input).isBlocked = true
    ∧ (detect c3Input).operation = some "bash command"
    ∧ (detect c3Input).blockedCommand = some "git commit -m \"test\"" := by
  decide

/-- Claim C1, evaluation of the code at the failing input: for a captured
command of 150 characters the code returns a blockedCommand of 103
characters (100 characters plus the appended ellipsis), exceeding the
claimed 100-character cap, and the result carries no untruncated value. -/
theorem C1_code_eval :
    (detect c1Input).blockedCommand = some (String.mk (List.replicate 100 'a' ++ "...".data))
    ∧ ((detect c1Input).blockedCommand.getD "").length = 103 := by
  decide

/-- Claim C2, counterexample: this input contains the past-tense auxiliary
"was" immediately preceding "waiting for permission", yet detect classifies
it as blocked, because a separate live prompt also occurs in it; so the
claim quantified over every input containing such a phrase is false. -/
theorem C2_counterexample :
    hasPastPrecededPhrase (combinedOutput c2CexInput) = true
    ∧ (detect c2CexInput).isBlocked = true := by
  decide

/-- Claim C2 as amended: a past-tense-preceded occurrence never itself
matches: at any position right after was/were/been plus whitespace, the
waiting-for-permission rule and the three stalled-waiting indicators all
reject; and scenario B (past-tense narration only) yields isBlocked false. -/
theorem C2_past_tense_amended :
    (∀ revPrev rest : List Char, pastBlocked revPrev = true →
      waitingPermAt revPrev rest = none ∧ waitingInputAt revPrev rest = none
      ∧ awaitingRespAt revPrev rest = none ∧ pausedConfAt revPrev rest = none)
    ∧ detect c2Input = { isBlocked := false } := by
  constructor
  · intro revPrev rest h
    refine ⟨?_, ?_, ?_, ?_⟩
    · unfold waitingPermAt
      rw [if_pos h]
    · unfold waitingInputAt
      rw [if_pos h]
    · unfold awaitingRespAt
      rw [if_pos h]
    · unfold pausedConfAt
      rw [if_pos h]
  · decide

/-- Witness for the amended C2 theorem at a concrete position: right after
"was " the waiting-for-permission rule rejects the phrase. -/
theorem C2_past_tense_witness :
    waitingPermAt [' ', 's', 'a', 'w'] "waiting for permission".data = none :=
  (C2_past_tense_amended.1 [' ', 's', 'a', 'w'] "waiting for permission".data (by decide)).1
/-- Claim C4, counterexample: an empty agentId string is present and does
not contain the token "claude", yet the rules are still evaluated (the
JavaScript guard tests truthiness, and the empty string is falsy), so the
input is classified as blocked rather than isBlocked false. -/
theorem C4_counterexample :
    c4CexInput.agentId = some "" ∧ isClaudeAgent "" = false
    ∧ (detect c4CexInput).isBlocked = true := by
  decide

/-- Claim C4 as amended: with agentId absent or empty the rules are
evaluated; a present non-empty agentId without the substring "claude"
(case-insensitively) short-circuits to isBlocked false; an agentId
containing "claude" in any casing is evaluated normally. -/
theorem C4_agent_filter_amended :
    ∀ (i : PermissionDenialInput) (a : String),
      (i.agentId = none → detect i = patternDetect (combinedOutput i))
      ∧ (i.agentId = some a → a.isEmpty = true → detect i = patternDetect (combinedOutput i))
      ∧ (i.agentId = some a → a.isEmpty = false → isClaudeAgent a = false →
          detect i = { isBlocked := false })
      ∧ (i.agentId = some a → isClaudeAgent a = true → detect i = patternDetect (combinedOutput i)) := by
  intro i a
  refine ⟨?_, ?_, ?_, ?_⟩
  · intro h
    unfold detect
    rw [h]
  · intro h he
    unfold detect
    rw [h]
    simp [he]
  · intro h he hc
    unfold detect
    rw [h]
    simp [he, hc]
  · intro h hc
    unfold detect
    rw [h]
    simp [hc]

/-- Witness for the amended C4 theorem: a non-Claude identifier suppresses
classification of a live prompt; an upper-case Claude identifier is
evaluated normally. -/
theorem C4_agent_filter_witness :
    detect c4AInput = { isBlocked := false }
    ∧ detect c4BInput = patternDetect (combinedOutput c4BInput) :=
  ⟨(C4_agent_filter_amended c4AInput "opencode").2.2.1 rfl (by decide) (by decide),
   (C4_agent_filter_amended c4BInput "CLAUDE_AGENT").2.2.2 rfl (by decide)⟩

/-- Claim C5: the primary rules are evaluated in their fixed order and the
first match determines the result, so an input matching an earlier and a
later rule gets the earlier rule's operation; the indicators are consulted
only when no primary rule matched, and then yield isBlocked true with the
generic operation "blocked operation" and no blockedCommand. -/
theorem C5_rule_order :
    (∀ (out : List Char) (k : Nat) (hk : k < PERMISSION_PATTERNS.length),
      (∀ (j : Nat) (hj : j < k),
        reTest (PERMISSION_PATTERNS.get ⟨j, Nat.lt_trans hj hk⟩).pattern out = false) →
      reTest (PERMISSION_PATTERNS.get ⟨k, hk⟩).pattern out = true →
      patternDetect out = mkRuleResult out (PERMISSION_PATTERNS.get ⟨k, hk⟩))
    ∧ (∀ out : List Char,
      (∀ p ∈ PERMISSION_PATTERNS, reTest p.pattern out = false) →
      (∃ re ∈ BLOCKED_INDICATORS, reTest re out = true) →
      (patternDetect out).isBlocked = true
      ∧ (patternDetect out).operation = some "blocked operation"
      ∧ (patternDetect out).blockedCommand = none) := by
  constructor
  · intro out k hk hprev hq
    have h := find_first (fun p => reTest p.pattern out) PERMISSION_PATTERNS k hk hprev hq
    unfold patternDetect
    rw [h]
  · intro out hall hex
    have h1 : PERMISSION_PATTERNS.find? (fun p => reTest p.pattern out) = none :=
      List.find?_eq_none.mpr (fun p hp => by simp [hall p hp])
    have h2 : (BLOCKED_INDICATORS.find? (fun re => reTest re out)).isSome := by
      rw [List.find?_isSome]
      obtain ⟨re, hre, ht⟩ := hex
      exact ⟨re, hre, by simp [ht]⟩
    obtain ⟨re2, hre2⟩ := Option.isSome_iff_exists.mp h2
    unfold patternDetect
    rw [h1, hre2]
    exact ⟨rfl, rfl, rfl⟩

/-- Witness for the C5 theorem: an input matching the first rule and also
the fourth gets the first rule's operation; an input matching only the
fourth rule, after the first three fail, gets that rule's result; an input
matching no primary rule but an indicator gets the generic blocked result. -/
theorem C5_rule_order_witness :
    patternDetect "Claude wants to run: ls\nwaiting for permission".data
      = mkRuleResult "Claude wants to run: ls\nwaiting for permission".data
          (PERMISSION_PATTERNS.get ⟨0, by decide⟩)
    ∧ patternDetect "waiting for permission now".data
      = mkRuleResult "waiting for permission now".data (PERMISSION_PATTERNS.get ⟨3, by decide⟩)
    ∧ (patternDetect "awaiting response".data).isBlocked = true
    ∧ (patternDetect "awaiting response".data).operation = some "blocked operation"
    ∧ (patternDetect "awaiting response".data).blockedCommand = none := by
  refine ⟨?_, ?_, ?_⟩
  · exact C5_rule_order.1 "Claude wants to run: ls\nwaiting for permission".data 0 (by decide)
      (fun j hj => absurd hj (Nat.not_lt_zero j)) (by decide)
  · exact C5_rule_order.1 "waiting for permission now".data 3 (by decide) (by decide) (by decide)
  · exact C5_rule_order.2 "awaiting response".data (by decide) (by decide)
/-- Claim C6, counterexample: initializing the Droid plugin with a valid
configuration that disables tracing mutates the capability descriptor,
setting supportsSubagentTracing from true to false; the descriptor is
therefore not the same before and after initialization. -/
theorem C6_counterexample :
    (droidInit (DroidAgentConfigSchema.safeParse c6Config) droidInitialState).meta.supportsSubagentTracing = false
    ∧ droidInitialState.meta.supportsSubagentTracing = true := by
  decide

/-- Claim C6 as amended: initialization leaves every capability field
unchanged except supportsSubagentTracing, which is set to false exactly
when validation succeeds with tracing disabled and is unchanged otherwise. -/
theorem C6_meta_static_amended :
    ∀ (p : Option DroidParsedConfig) (s : DroidState),
      ((droidInit p s).meta.id = s.meta.id
      ∧ (droidInit p s).meta.name = s.meta.name
      ∧ (droidInit p s).meta.description = s.meta.description
      ∧ (droidInit p s).meta.version = s.meta.version
      ∧ (droidInit p s).meta.author = s.meta.author
      ∧ (droidInit p s).meta.defaultCommand = s.meta.defaultCommand
      ∧ (droidInit p s).meta.supportsStreaming = s.meta.supportsStreaming
      ∧ (droidInit p s).meta.supportsInterrupt = s.meta.supportsInterrupt
      ∧ (droidInit p s).meta.supportsFileContext = s.meta.supportsFileContext
      ∧ (droidInit p s).meta.structuredOutputFormat = s.meta.structuredOutputFormat)
      ∧ (droidInit p s).meta.supportsSubagentTracing =
          (match p with
           | some d => if d.enableTracing then s.meta.supportsSubagentTracing else false
           | none => s.meta.supportsSubagentTracing) := by
  intro p s
  cases p with
  | none => exact ⟨⟨rfl, rfl, rfl, rfl, rfl, rfl, rfl, rfl, rfl, rfl⟩, rfl⟩
  | some d =>
    obtain ⟨dm, dr, dsk, den⟩ := d
    have hmeta : (droidInit (some ⟨dm, dr, dsk, den⟩) s).meta =
        (if den then s.meta else { s.meta with supportsSubagentTracing := false }) := by
      unfold droidInit
      cases dm with
      | none => cases dr <;> cases den <;> simp
      | some m => cases dr <;> cases den <;> by_cases hm : 0 < m.length <;> simp [hm]
    rw [hmeta]
    cases den <;> simp

/-- Claim C7: the detector is pure and stateless: a detect call after any
history of calls returns exactly the pure classification of its input, the
detector state is unchanged by a call, and two calls on identical input
return structurally equal results whatever instances serve them. -/
theorem C7_pure_detector :
    ∀ (d : PermissionDenialDetector) (history : List PermissionDenialInput)
      (i : PermissionDenialInput),
      (runCalls d (history ++ [i])).getLast? = some (detect i)
      ∧ (detectM d i).2 = d
      ∧ (∀ d2 : PermissionDenialDetector, (detectM d i).1 = (detectM d2 i).1) := by
  intro d history i
  refine ⟨?_, rfl, fun d2 => rfl⟩
  rw [runCalls_concat d i history]
  exact List.getLast?_concat _

/-- Claim C8: whitespace-only stdout with absent or whitespace-only stderr
is classified as not blocked, for any exit code and agent identifier; and
output whose only keyword occurrences sit inside code, such as a function
named checkPermission, is classified as not blocked. -/
theorem C8_whitespace_not_blocked :
    (∀ (so : String) (se : Option String) (ec : Option Int) (aid : Option String),
      so.data.all isWS = true → (se.getD "").data.all isWS = true →
      detect { stdout := so, stderr := se, exitCode := ec, agentId := aid } = { isBlocked := false })
    ∧ detect { stdout := "function checkPermission() \x7b return true; \x7d" }
        = { isBlocked := false } := by
  constructor
  · intro so se ec aid h1 h2
    have hco : (combinedOutput { stdout := so, stderr := se, exitCode := ec, agentId := aid }).all isWS = true := by
      unfold combinedOutput
      simp only [List.all_append, List.all_cons, Bool.and_eq_true]
      exact ⟨h1, by decide, h2⟩
    have hp := patternDetect_ws _ hco
    unfold detect
    cases aid with
    | none => exact hp
    | some a =>
      by_cases hc : !a.isEmpty && !isClaudeAgent a
      · simp only [hc, if_true]
      · simp only [hc, if_false]
        exact hp
  · decide

/-- Witness for the C8 theorem: whitespace stdout and stderr with an exit
code and no agent identifier classify as not blocked. -/
theorem C8_whitespace_witness :
    detect { stdout := "  \t\n", stderr := some " ", exitCode := some 1 } = { isBlocked := false } :=
  C8_whitespace_not_blocked.1 "  \t\n" (some " ") (some 1) none (by decide) (by decide)

/-- Claim C9: the extracted message equals the spec-side description (a
20-before/80-after window around the leftmost match, trimmed, whitespace
collapsed, truncated to 150 characters with an appended ellipsis, and the
default Permission required when no match location exists), and its length
never exceeds 153. -/
theorem C9_message_window :
    ∀ (output : List Char) (re : JsRegex),
      extractMessage output re
        = messageSpecSide output ((firstMatch re output).map (fun t => (t.1, t.2.1)))
      ∧ (extractMessage output re).length ≤ 153 := by
  intro output re
  cases h : firstMatch re output with
  | none =>
    refine ⟨by simp [extractMessage, messageSpecSide, h], ?_⟩
    simp only [extractMessage, h]
    decide
  | some t =>
    obtain ⟨i, m, g⟩ := t
    constructor
    · simp [extractMessage, messageSpecSide, h, truncate150, windowSlice]
    · simp only [extractMessage, h]
      set msg := collapseWS (trimWS ((output.take (min output.length (i + m.length + 80))).drop (i - 20))) with hmsg
      by_cases hl : 150 < msg.length
      · rw [if_pos hl]
        have h3 : ("...".data).length = 3 := rfl
        simp only [List.length_append, List.length_take, h3]
        omega
      · rw [if_neg hl]
        omega

/-- Claim C10: a configuration failing schema validation leaves initialize
without effect: the option state keeps its defaults (model and reasoning
effort unset, skipPermissions false, enableTracing true) and the capability
descriptor is unchanged. -/
theorem C10_invalid_config :
    ∀ cfg : DroidAgentConfig,
      DroidAgentConfigSchema.safeParse cfg = none →
      droidInit (DroidAgentConfigSchema.safeParse cfg) droidInitialState = droidInitialState
      ∧ (droidInit (DroidAgentConfigSchema.safeParse cfg) droidInitialState).model = none
      ∧ (droidInit (DroidAgentConfigSchema.safeParse cfg) droidInitialState).reasoningEffort = none
      ∧ (droidInit (DroidAgentConfigSchema.safeParse cfg) droidInitialState).skipPermissions = false
      ∧ (droidInit (DroidAgentConfigSchema.safeParse cfg) droidInitialState).enableTracing = true
      ∧ (droidInit (DroidAgentConfigSchema.safeParse cfg) droidInitialState).meta = droidMeta := by
  intro cfg h
  rw [h]
  exact ⟨rfl, rfl, rfl, rfl, rfl, rfl⟩

/-- Witness for the C10 theorem: a string-typed skipPermissions fails
validation and the state stays at the defaults. -/
theorem C10_invalid_config_witness :
    DroidAgentConfigSchema.safeParse c10BadConfig = none
    ∧ droidInit (DroidAgentConfigSchema.safeParse c10BadConfig) droidInitialState = droidInitialState :=
  ⟨by decide, (C10_invalid_config c10BadConfig (by decide)).1⟩
